import Mathlib

/-!
# Verification of the pipx venv module (`src/pipx/venv.py`)

A shallow embedding of `VenvContainer` and `Venv` from `pipx/venv.py`.
Filesystem state, the metadata document, subprocess exit codes and the
introspector's output are modelled explicitly; each operation of the source
becomes a pure function over that state.  External collaborators invoked by
the module (the pip subprocess, the shared-libs manager, the metadata store)
are modelled as oracle inputs / explicit state, matching the calls the source
makes.
-/

namespace Pipx

/-! ## Name canonicalization (`packaging.utils.canonicalize_name`)

`VenvContainer.get_venv_dir` calls the vendored
`pipx._vendor.packaging.utils.canonicalize_name`, which is
`re.sub(r"[-_.]+", "-", name).lower()`: every maximal run of `-`, `_`, `.`
characters is replaced by a single `-`, then the result is lowercased.
The vendored module is not under `src/`; per the spec it is "name
canonicalization (lowercase, separator normalization)". -/

/-- `True` for the characters of the regex class `[-_.]`. -/
def isSep (c : Char) : Bool := c == '-' || c == '_' || c == '.'

/-- Replace each maximal run of separator characters by a single `'-'`:
the effect of `re.sub(r"[-_.]+", "-", s)`.  The dash for a run is emitted at
the last character of the run (all earlier characters of the run are
dropped), which yields the same string as replacing the run wholesale. -/
def collapseSeps : List Char → List Char
  | [] => []
  | [c] => if isSep c then ['-'] else [c]
  | c :: c2 :: rest =>
    if isSep c && isSep c2 then collapseSeps (c2 :: rest)
    else (if isSep c then '-' else c) :: collapseSeps (c2 :: rest)

/-- Modelled from the spec: `canonicalize_name` of the vendored `packaging`
library (not under `src/`) — separator-run normalization followed by
lowercasing. -/
def canonicalize_name (s : String) : String :=
  String.mk ((collapseSeps s.data).map Char.toLower)

/-- `True` for `-` and `_`: the separators the claim C6 allows to differ. -/
def isDashUnd (c : Char) : Bool := c == '-' || c == '_'

/-- Two characters "differ only in letter case or hyphen-versus-underscore":
they are equal, or both are in `{-, _}`, or neither is a separator and they
agree up to case. -/
def relChar (c1 c2 : Char) : Bool :=
  c1 == c2 || (isDashUnd c1 && isDashUnd c2) ||
    (!(isSep c1) && !(isSep c2) && c1.toLower == c2.toLower)

/-- Two names differ only in letter case or hyphen-vs-underscore:
positionwise `relChar`. -/
def relNameChars : List Char → List Char → Bool
  | [], [] => true
  | a :: as, b :: bs => relChar a b && relNameChars as bs
  | _, _ => false

def relName (s1 s2 : String) : Bool := relNameChars s1.data s2.data

theorem isDashUnd_cases {c : Char} (h : isDashUnd c = true) :
    c = '-' ∨ c = '_' := by
  simpa [isDashUnd, Bool.or_eq_true, beq_iff_eq] using h

theorem isSep_of_isDashUnd {c : Char} (h : isDashUnd c = true) :
    isSep c = true := by
  rcases isDashUnd_cases h with rfl | rfl <;> decide

theorem isSep_eq_of_relChar {c1 c2 : Char} (h : relChar c1 c2 = true) :
    isSep c1 = isSep c2 := by
  simp only [relChar, Bool.or_eq_true, Bool.and_eq_true, beq_iff_eq,
    Bool.not_eq_true'] at h
  rcases h with (h | ⟨h1, h2⟩) | ⟨⟨h1, h2⟩, _⟩
  · rw [h]
  · rw [isSep_of_isDashUnd h1, isSep_of_isDashUnd h2]
  · rw [h1, h2]

theorem toLower_eq_of_relChar {c1 c2 : Char} (h : relChar c1 c2 = true)
    (hs : isSep c1 = false) : c1.toLower = c2.toLower := by
  simp only [relChar, Bool.or_eq_true, Bool.and_eq_true, beq_iff_eq,
    Bool.not_eq_true'] at h
  rcases h with (h | ⟨h1, _⟩) | ⟨_, h3⟩
  · rw [h]
  · rw [isSep_of_isDashUnd h1] at hs
    exact absurd hs (by simp)
  · exact h3

theorem collapseSeps_map_toLower_eq : ∀ (l1 l2 : List Char),
    relNameChars l1 l2 = true →
    (collapseSeps l1).map Char.toLower = (collapseSeps l2).map Char.toLower := by
  intro l1
  induction l1 with
  | nil =>
    intro l2 h
    cases l2 with
    | nil => rfl
    | cons b bs => simp [relNameChars] at h
  | cons a as ih =>
    intro l2 h
    cases l2 with
    | nil => simp [relNameChars] at h
    | cons b bs =>
      simp only [relNameChars, Bool.and_eq_true] at h
      obtain ⟨hab, hrest⟩ := h
      have hsep := isSep_eq_of_relChar hab
      cases as with
      | nil =>
        cases bs with
        | nil =>
          simp only [collapseSeps]
          cases hs : isSep a with
          | true => rw [hsep] at hs; simp [← hsep ▸ hs, hs]
          | false =>
            rw [hsep] at hs
            have hs' : isSep a = false := hsep ▸ hs
            simp [hs, hs', toLower_eq_of_relChar hab hs']
        | cons b2 bs' => simp [relNameChars] at hrest
      | cons a2 as' =>
        cases bs with
        | nil => simp [relNameChars] at hrest
        | cons b2 bs' =>
          have hab2 : relChar a2 b2 = true := by
            simp only [relNameChars, Bool.and_eq_true] at hrest
            exact hrest.1
          have hsep2 := isSep_eq_of_relChar hab2
          have ihr := ih (b2 :: bs') hrest
          simp only [collapseSeps]
          cases hs : isSep a with
          | true =>
            have hbs : isSep b = true := hsep ▸ hs
            cases hs2 : isSep a2 with
            | true =>
              have hbs2 : isSep b2 = true := hsep2 ▸ hs2
              simp [hs, hs2, hbs, hbs2, ihr]
            | false =>
              have hbs2 : isSep b2 = false := hsep2 ▸ hs2
              simp [hs, hs2, hbs, hbs2, ihr]
          | false =>
            have hbs : isSep b = false := hsep ▸ hs
            cases hs2 : isSep a2 with
            | true =>
              have hbs2 : isSep b2 = true := hsep2 ▸ hs2
              simp [hs, hs2, hbs, hbs2, ihr, toLower_eq_of_relChar hab hs]
            | false =>
              have hbs2 : isSep b2 = false := hsep2 ▸ hs2
              simp [hs, hs2, hbs, hbs2, ihr, toLower_eq_of_relChar hab hs]

/-! ## VenvContainer

`VenvContainer(root)` stores a root directory.  The filesystem below a path
is modelled by the tree `FsTree`; a path that may not exist is an
`Option FsTree`. -/

/-- A filesystem entry: a plain file, or a directory with its (direct)
child entries. -/
inductive FsTree : Type where
  | file (nm : String)
  | dir (nm : String) (children : List FsTree)

/-- Whether an entry is a directory (`Path.is_dir`). -/
def FsTree.isDirB : FsTree → Bool
  | .dir _ _ => true
  | .file _ => false

/-- `VenvContainer.iter_venv_dirs`: if the root is absent or not a
directory, yield nothing; otherwise yield exactly the direct children that
are directories, skipping the rest.  Total — the embedding of the fact that
the generator never raises. -/
def iter_venv_dirs : Option FsTree → List FsTree
  | some (FsTree.dir _ cs) => cs.filter FsTree.isDirB
  | _ => []

/-- `VenvContainer.get_venv_dir`: `self._root.joinpath(canonicalize_name
(package))`.  A path is modelled as its list of segments. -/
def get_venv_dir (root : List String) (package : String) : List String :=
  root ++ [canonicalize_name package]

/-! ## The metadata document

Modelled from the spec: the `PackageInfo` and `PipxMetadata` classes live in
`pipx/pipx_metadata_file.py`, which is not under `src/`.  Per the spec's
data model, a `PackageRecord` holds the package name, resolved
specifier/URL, extra install arguments, the two include flags, exposed
command names and paths, dependency-exposed command names and paths, the
installed version, and an optional suffix; the document holds the main
record (absent package name signalling a legacy environment), the
injected-package mapping, creation arguments and interpreter version. -/

/-- Modelled from the spec: one `PackageRecord` of the metadata document
(`PackageInfo` in `pipx/pipx_metadata_file.py`, not under `src/`). -/
structure PackageInfo where
  package : Option String
  package_or_url : Option String
  pip_args : List String
  include_apps : Bool
  include_dependencies : Bool
  apps : List String
  app_paths : List String
  apps_of_dependencies : List String
  app_paths_of_dependencies : List (String × List String)
  package_version : Option String
  suffix : String
deriving DecidableEq

/-- The empty record used by a fresh metadata document (no main package
recorded). -/
def PackageInfo.empty : PackageInfo :=
  { package := none, package_or_url := none, pip_args := [],
    include_apps := false, include_dependencies := false, apps := [],
    app_paths := [], apps_of_dependencies := [],
    app_paths_of_dependencies := [], package_version := none, suffix := "" }

/-- A Python `dict` keyed by strings, as an insertion-ordered association
list. -/
def dictLookup {α : Type} : List (String × α) → String → Option α
  | [], _ => none
  | (k, v) :: rest, key => if k = key then some v else dictLookup rest key

/-- Python `d[key] = v`: replace the value in place when the key is
present, append otherwise. -/
def dictInsert {α : Type} : List (String × α) → String → α → List (String × α)
  | [], key, v => [(key, v)]
  | (k, w) :: rest, key, v =>
    if k = key then (key, v) :: rest else (k, w) :: dictInsert rest key v

/-- Modelled from the spec: the per-environment metadata document
(`PipxMetadata` in `pipx/pipx_metadata_file.py`, not under `src/`). -/
structure PipxMetadata where
  main_package : PackageInfo
  injected_packages : List (String × PackageInfo)
  venv_args : List String
  python_version : Option String
deriving DecidableEq

/-- A fresh document: no main package, no injected packages. -/
def PipxMetadata.empty : PipxMetadata :=
  { main_package := PackageInfo.empty, injected_packages := [],
    venv_args := [], python_version := none }

/-! ## Venv state and external collaborators -/

/-- Modelled from the spec: the fixed reserved marker file name
(`PIPX_SHARED_PTH` in `pipx/constants.py`, not under `src/`). -/
def PIPX_SHARED_PTH : String := "pipx_shared.pth"

mutual
/-- Recursive search of `Path.glob("**/" + PIPX_SHARED_PTH)` below one
entry: the entry itself is named like the marker, or some descendant is. -/
def containsMarker : FsTree → Bool
  | .file nm => nm == PIPX_SHARED_PTH
  | .dir nm cs => nm == PIPX_SHARED_PTH || containsMarkerList cs

/-- `containsMarker` over a list of sibling entries. -/
def containsMarkerList : List FsTree → Bool
  | [] => false
  | t :: ts => containsMarker t || containsMarkerList ts
end

/-- The state of one `Venv` object together with the filesystem below its
root and the persisted copy of its metadata document.  `rootChildren` is
`none` when the root does not exist, otherwise the list of direct entries.
`written` is what the metadata store holds on disk; `pipx_metadata` is the
in-memory document. -/
structure VenvState where
  root_name : String
  rootChildren : Option (List FsTree)
  existing : Bool
  pipx_metadata : PipxMetadata
  written : Option PipxMetadata

/-- State of the shared-libs manager (`pipx/shared_libs.py`, not under
`src/`): modelled from the spec as validity and staleness flags. -/
structure SharedLibs where
  is_valid : Bool
  needs_upgrade : Bool
deriving DecidableEq

/-- The effect of the shared-libs manager's `create` and `upgrade` calls,
as arbitrary transition functions supplied by the caller (the module under
verification only invokes them and re-reads `is_valid`). -/
structure SharedLibsOps where
  create : SharedLibs → SharedLibs
  upgrade : SharedLibs → SharedLibs

/-- Errors raised by the module (`PipxError` in `pipx/util.py`), one
constructor per raise site reachable from the modelled operations. -/
inductive PipxError where
  | errorInstalling (package package_or_url : String)
  | unableToInstall (package package_or_url : String)
  | cannotDetermineName (package_or_url : String)
  | sharedVenvInvalid (root_name : String)
  | subprocessFailed
  | keyError (key : String)
deriving DecidableEq

/-- Result of an operation on a `Venv`: the state at the point of return or
at the point of the raise.  Keeping the state in the error case records
which writes happened before the exception. -/
inductive OpResult (α : Type) where
  | ok (st : VenvState) (v : α)
  | err (st : VenvState) (e : PipxError)

namespace Venv

/-- The state a `Venv.__init__` builds before the shared-libs block: paths
derived from the root, the metadata document loaded from the store
(default when absent), and `self._existing`, which is truthy exactly when
the root exists and `next(self.root.iterdir())` does not raise
`StopIteration`, i.e. the root has at least one entry. -/
def mk0 (root_name : String) (rootChildren : Option (List FsTree))
    (stored : Option PipxMetadata) : VenvState :=
  { root_name := root_name, rootChildren := rootChildren,
    existing := match rootChildren with
      | some (_ :: _) => true
      | _ => false,
    pipx_metadata := stored.getD PipxMetadata.empty,
    written := stored }

/-- `Venv.uses_shared_libs`: for a pre-existing root, glob recursively for
the marker file name; a brand-new venv always uses shared libs. -/
def uses_shared_libs (st : VenvState) : Bool :=
  if st.existing then containsMarkerList (st.rootChildren.getD [])
  else true

/-- `Venv.__init__`: build the state, then — only for a pre-existing venv
that uses shared libs — reconcile the shared runtime: if valid but stale,
upgrade it; if invalid, create it; if it is still invalid afterwards, raise
`PipxError`. -/
def init (root_name : String) (rootChildren : Option (List FsTree))
    (stored : Option PipxMetadata) (sl : SharedLibs) (ops : SharedLibsOps) :
    Except PipxError (VenvState × SharedLibs) :=
  let st := mk0 root_name rootChildren stored
  if st.existing && uses_shared_libs st then
    let sl1 :=
      if sl.is_valid then
        if sl.needs_upgrade then ops.upgrade sl else sl
      else ops.create sl
    if sl1.is_valid then .ok (st, sl1)
    else .error (.sharedVenvInvalid root_name)
  else .ok (st, sl)

/-- `Venv.name`: the main package's name plus its suffix, or the root
directory's name when no main package is recorded. -/
def name (st : VenvState) : String :=
  match st.pipx_metadata.main_package.package with
  | some p => p ++ st.pipx_metadata.main_package.suffix
  | none => st.root_name

/-- `Venv.main_package_name`: the main package's name, or the root
directory's name for a legacy (pre-metadata) environment. -/
def main_package_name (st : VenvState) : String :=
  match st.pipx_metadata.main_package.package with
  | some p => p
  | none => st.root_name

/-- `Venv.package_metadata`: a copy of the injected-package dict, with the
main package assigned on top of it when one is recorded. -/
def package_metadata (md : PipxMetadata) : List (String × PackageInfo) :=
  match md.main_package.package with
  | some nm => dictInsert md.injected_packages nm md.main_package
  | none => md.injected_packages

/-- `Venv.safe_to_remove`: `not self._existing`. -/
def safe_to_remove (st : VenvState) : Bool := !st.existing

/-- `Venv.remove_venv`: `rmdir(self.root)` when safe to remove, otherwise
log a warning and touch nothing.  The returned flag is whether the warning
path was taken. -/
def remove_venv (st : VenvState) : VenvState × Bool :=
  if safe_to_remove st then ({ st with rootChildren := none }, false)
  else (st, true)

/-! External collaborators of `install_package`, modelled from the spec:
`fix_package_name`, `parse_specifier_for_install` and
`parse_specifier_for_metadata` live in `pipx/package_specifier.py` (not
under `src/`); the spec excludes "the specifier-parsing/normalization
logic" from scope, so they are modelled as identities (pure normalizers
whose behaviour the claims do not depend on). -/

/-- Modelled from the spec: reconcile a user-supplied URL/spec against the
declared package name (external normalizer, identity here). -/
def fix_package_name (package_or_url : String) (_package : String) : String :=
  package_or_url

/-- Modelled from the spec: syntax check and clean-up of spec and pip args
(external normalizer, identity here). -/
def parse_specifier_for_install (spec : String) (pip_args : List String) :
    String × List String := (spec, pip_args)

/-- Modelled from the spec: normalization of the spec recorded in metadata
(external normalizer, identity here). -/
def parse_specifier_for_metadata (spec : String) : String := spec

/-- The output of `Venv.get_venv_metadata_for_package`: the JSON document
the introspection payload prints (`VenvMetadata`).  The version is
`Option`al — the inspector reports `null` when the package cannot be
found, which is exactly the case `install_package`'s final check guards
for. -/
structure VenvMetadata where
  apps : List String
  app_paths : List String
  apps_of_dependencies : List String
  app_paths_of_dependencies : List (String × List String)
  package_version : Option String
  python_version : String
deriving DecidableEq

/-- The environment-dependent outcomes of one install/upgrade call: the pip
subprocess's exit code and the introspector's output. -/
structure InstallWorld where
  pip_returncode : Nat
  introspected : VenvMetadata

/-- The `package_info` record `_update_package_metadata` builds from its
arguments and the introspected facts. -/
def builtRecord (vm : VenvMetadata) (package package_or_url : String)
    (pip_args : List String) (include_dependencies include_apps : Bool)
    (suffix : String) : PackageInfo :=
  { package := some package,
    package_or_url := some (parse_specifier_for_metadata package_or_url),
    pip_args := pip_args,
    include_apps := include_apps,
    include_dependencies := include_dependencies,
    apps := vm.apps,
    app_paths := vm.app_paths,
    apps_of_dependencies := vm.apps_of_dependencies,
    app_paths_of_dependencies := vm.app_paths_of_dependencies,
    package_version := vm.package_version,
    suffix := suffix }

/-- `Venv._update_package_metadata`: introspect the venv, build a
`PackageInfo` from arguments plus introspected facts, store it as the main
or an injected record, then persist the whole document
(`self.pipx_metadata.write()`). -/
def update_package_metadata (st : VenvState) (vm : VenvMetadata)
    (package package_or_url : String) (pip_args : List String)
    (include_dependencies include_apps is_main_package : Bool)
    (suffix : String) : VenvState :=
  let package_info : PackageInfo :=
    builtRecord vm package package_or_url pip_args include_dependencies
      include_apps suffix
  let md :=
    if is_main_package then
      { st.pipx_metadata with main_package := package_info }
    else
      { st.pipx_metadata with
        injected_packages :=
          dictInsert st.pipx_metadata.injected_packages package package_info }
  { st with pipx_metadata := md, written := some md }

/-- `Venv.install_package`: normalize the spec, run `pip install`, raise on
a nonzero exit; otherwise update and persist the metadata, then raise the
missing-version error if the introspected version of the freshly recorded
package is absent. -/
def install_package (st : VenvState) (w : InstallWorld)
    (package package_or_url : String) (pip_args : List String)
    (include_dependencies include_apps is_main_package : Bool)
    (suffix : String) : OpResult Unit :=
  let package_or_url := fix_package_name package_or_url package
  let (package_or_url, pip_args) :=
    parse_specifier_for_install package_or_url pip_args
  if w.pip_returncode ≠ 0 then
    .err st (.errorInstalling package package_or_url)
  else
    let st1 := update_package_metadata st w.introspected package
      package_or_url pip_args include_dependencies include_apps
      is_main_package suffix
    match dictLookup (package_metadata st1.pipx_metadata) package with
    | none => .err st1 (.keyError package)
    | some pi =>
      if pi.package_version = none then
        .err st1 (.unableToInstall package package_or_url)
      else .ok st1 ()

/-- The environment-dependent outcomes of one
`install_package_no_deps` call: the exit code of
`pip install --no-dependencies` and the two `pip list` snapshots. -/
structure NoDepsWorld where
  pip_returncode : Nat
  installed_before : Finset String
  installed_after : Finset String

/-- `Venv.install_package_no_deps`: snapshot the installed names, run
`pip install --no-dependencies`, raise on nonzero exit; diff the snapshots
and return the single new name, raising the same error unless the diff has
exactly one element. -/
def install_package_no_deps (st : VenvState) (w : NoDepsWorld)
    (package_or_url : String) (_pip_args : List String) : OpResult String :=
  let old_package_set := w.installed_before
  if w.pip_returncode ≠ 0 then
    .err st (.cannotDetermineName package_or_url)
  else
    let installed_packages := w.installed_after \ old_package_set
    if h : installed_packages.card = 1 then
      .ok st (installed_packages.min'
        (Finset.card_pos.mp (h ▸ Nat.one_pos)))
    else .err st (.cannotDetermineName package_or_url)

/-- `Venv.upgrade_package`: run `pip install --upgrade`,
`subprocess_post_check` raises on a nonzero exit; otherwise update and
persist the metadata.  Unlike `install_package`, there is no
missing-version check afterwards. -/
def upgrade_package (st : VenvState) (w : InstallWorld)
    (package package_or_url : String) (pip_args : List String)
    (include_dependencies include_apps is_main_package : Bool)
    (suffix : String) : OpResult Unit :=
  if w.pip_returncode ≠ 0 then
    .err st .subprocessFailed
  else
    .ok (update_package_metadata st w.introspected package package_or_url
      pip_args include_dependencies include_apps is_main_package suffix) ()

end Venv

/-! ## Helper lemmas -/

/-- The state at the point an operation returned or raised. -/
def OpResult.state {α : Type} : OpResult α → VenvState
  | .ok st _ => st
  | .err st _ => st

/-- The error an operation raised, if any. -/
def OpResult.error {α : Type} : OpResult α → Option PipxError
  | .ok _ _ => none
  | .err _ e => some e

theorem dictLookup_dictInsert_self {α : Type} (d : List (String × α))
    (key : String) (v : α) : dictLookup (dictInsert d key v) key = some v := by
  induction d with
  | nil => simp [dictInsert, dictLookup]
  | cons hd rest ih =>
    obtain ⟨k, w⟩ := hd
    by_cases hk : k = key
    · simp [dictInsert, hk, dictLookup]
    · simp [dictInsert, hk, dictLookup, ih]

theorem dictLookup_dictInsert_ne {α : Type} (d : List (String × α))
    (key key' : String) (v : α) (h : key' ≠ key) :
    dictLookup (dictInsert d key v) key' = dictLookup d key' := by
  induction d with
  | nil => simp [dictInsert, dictLookup, Ne.symm h]
  | cons hd rest ih =>
    obtain ⟨k, w⟩ := hd
    by_cases hk : k = key
    · subst hk
      simp [dictInsert, dictLookup, Ne.symm h]
    · simp [dictInsert, dictLookup, hk, ih]

/-- A marker file is reachable below an entry: the entry itself carries the
reserved name, or some child's subtree does.  The specification-level
reading of the recursive glob. -/
inductive HasMarker : FsTree → Prop where
  | fileSelf : HasMarker (FsTree.file PIPX_SHARED_PTH)
  | dirSelf (cs : List FsTree) : HasMarker (FsTree.dir PIPX_SHARED_PTH cs)
  | dirChild (nm : String) (cs : List FsTree) (t : FsTree) :
      t ∈ cs → HasMarker t → HasMarker (FsTree.dir nm cs)

mutual
theorem containsMarker_iff : ∀ (t : FsTree),
    containsMarker t = true ↔ HasMarker t
  | .file nm => by
    simp only [containsMarker, beq_iff_eq]
    constructor
    · rintro rfl; exact HasMarker.fileSelf
    · intro h; cases h; rfl
  | .dir nm cs => by
    simp only [containsMarker, Bool.or_eq_true, beq_iff_eq]
    constructor
    · rintro (rfl | h)
      · exact HasMarker.dirSelf cs
      · obtain ⟨t, ht, hm⟩ := (containsMarkerList_iff cs).mp h
        exact HasMarker.dirChild nm cs t ht hm
    · intro h
      cases h with
      | dirSelf => exact Or.inl rfl
      | dirChild _ _ t ht hm =>
        exact Or.inr ((containsMarkerList_iff cs).mpr ⟨t, ht, hm⟩)

theorem containsMarkerList_iff : ∀ (ts : List FsTree),
    containsMarkerList ts = true ↔ ∃ t ∈ ts, HasMarker t
  | [] => by simp [containsMarkerList]
  | t :: ts => by
    simp only [containsMarkerList, Bool.or_eq_true]
    rw [containsMarker_iff t, containsMarkerList_iff ts]
    constructor
    · rintro (h | ⟨u, hu, hm⟩)
      · exact ⟨t, List.mem_cons_self t ts, h⟩
      · exact ⟨u, List.mem_cons_of_mem t hu, hm⟩
    · rintro ⟨u, hu, hm⟩
      rcases List.mem_cons.mp hu with rfl | hu
      · exact Or.inl hm
      · exact Or.inr ⟨u, hu, hm⟩
end

/-- After `_update_package_metadata`, looking the package up in
`package_metadata` returns the freshly built record — provided the install
is the main one, or no main package of the very same name shadows an
injected record. -/
theorem lookup_after_update (st : VenvState) (vm : Venv.VenvMetadata)
    (package package_or_url : String) (pip_args : List String)
    (d a m : Bool) (suffix : String)
    (hm : m = true ∨ st.pipx_metadata.main_package.package ≠ some package) :
    dictLookup (Venv.package_metadata
        (Venv.update_package_metadata st vm package package_or_url pip_args
          d a m suffix).pipx_metadata) package =
      some (Venv.builtRecord vm package package_or_url pip_args d a suffix) := by
  cases m with
  | true =>
    exact dictLookup_dictInsert_self _ _ _
  | false =>
    rcases hm with hm | hm
    · exact absurd hm (by simp)
    · have hpm : Venv.package_metadata
          (Venv.update_package_metadata st vm package package_or_url pip_args
            d a false suffix).pipx_metadata =
          match st.pipx_metadata.main_package.package with
          | some nm =>
            dictInsert
              (dictInsert st.pipx_metadata.injected_packages package
                (Venv.builtRecord vm package package_or_url pip_args d a suffix))
              nm st.pipx_metadata.main_package
          | none =>
            dictInsert st.pipx_metadata.injected_packages package
              (Venv.builtRecord vm package package_or_url pip_args d a suffix) :=
        rfl
      rw [hpm]
      cases hmain : st.pipx_metadata.main_package.package with
      | none => exact dictLookup_dictInsert_self _ _ _
      | some nm =>
        have hne : package ≠ nm := fun hcontra => hm (hcontra ▸ hmain)
        rw [dictLookup_dictInsert_ne _ _ _ _ hne]
        exact dictLookup_dictInsert_self _ _ _

/-! ## Concrete states used by witnesses and counterexamples -/

/-- Introspector output whose `package_version` is absent (`null` in the
JSON) — the scenario of claims C1 and C5. -/
def vmNoVersion : Venv.VenvMetadata :=
  { apps := [], app_paths := [], apps_of_dependencies := [],
    app_paths_of_dependencies := [], package_version := none,
    python_version := "Python 3.12.1" }

/-- Installer exits 0 but introspection reports no version. -/
def wNoVersion : Venv.InstallWorld :=
  { pip_returncode := 0, introspected := vmNoVersion }

/-- A venv constructed on a root that does not exist yet. -/
def freshState : VenvState := Venv.mk0 "demo" none none

/-! ## Claims -/

/-- C6: for package names that differ only in letter case or
hyphen-versus-underscore separators, `get_venv_dir` resolves to the same
path directly under the container root, named by the canonicalized name. -/
theorem resolve_canonicalizes (root : List String) (p1 p2 : String)
    (h : relName p1 p2 = true) :
    get_venv_dir root p1 = get_venv_dir root p2 := by
  unfold get_venv_dir canonicalize_name
  rw [collapseSeps_map_toLower_eq p1.data p2.data h]

/-- Witness for C6 at `"My-Pkg"` vs `"my_pkg"`. -/
theorem resolve_canonicalizes_witness :
    relName "My-Pkg" "my_pkg" = true ∧
      get_venv_dir ["venvs"] "My-Pkg" = get_venv_dir ["venvs"] "my_pkg" :=
  ⟨by decide, resolve_canonicalizes ["venvs"] "My-Pkg" "my_pkg" (by decide)⟩

/-- C7: `iter_venv_dirs` yields nothing when the root is absent or not a
directory, and otherwise yields exactly the direct children that are
directories; it is a total function, so it never raises. -/
theorem enumerate_total (root : Option FsTree) :
    ((∀ nm cs, root ≠ some (FsTree.dir nm cs)) → iter_venv_dirs root = []) ∧
    (∀ nm cs, root = some (FsTree.dir nm cs) →
      ∀ e, e ∈ iter_venv_dirs root ↔ e ∈ cs ∧ e.isDirB = true) := by
  constructor
  · intro h
    match root with
    | none => rfl
    | some (FsTree.file nm) => rfl
    | some (FsTree.dir nm cs) => exact absurd rfl (h nm cs)
  · rintro nm cs rfl e
    simp [iter_venv_dirs, List.mem_filter]

/-- Witness for C7: a nonexistent root yields nothing, and a directory
child of an existing root is yielded. -/
theorem enumerate_total_witness :
    iter_venv_dirs none = [] ∧
      (FsTree.dir "black" [] ∈ iter_venv_dirs (some (FsTree.dir "venvs"
          [FsTree.dir "black" [], FsTree.file "stray"])) ↔
        FsTree.dir "black" [] ∈ [FsTree.dir "black" [], FsTree.file "stray"] ∧
          (FsTree.dir "black" []).isDirB = true) :=
  ⟨(enumerate_total none).1 (fun _ _ h => Option.noConfusion h),
   (enumerate_total _).2 "venvs" [FsTree.dir "black" [], FsTree.file "stray"]
     rfl (FsTree.dir "black" [])⟩

/-- C8: a venv whose root did not exist or was empty at construction
(`existing = false`) always reports `uses_shared_libs = true`; for a
pre-existing venv, `uses_shared_libs` holds exactly when a marker entry of
the reserved name exists somewhere under the root. -/
theorem uses_shared_libs_spec (root_name : String)
    (rootChildren : Option (List FsTree)) (stored : Option PipxMetadata) :
    ((rootChildren = none ∨ rootChildren = some []) →
      Venv.uses_shared_libs (Venv.mk0 root_name rootChildren stored) = true) ∧
    (∀ c cs, rootChildren = some (c :: cs) →
      (Venv.uses_shared_libs (Venv.mk0 root_name rootChildren stored) = true ↔
        ∃ t ∈ c :: cs, HasMarker t)) := by
  constructor
  · rintro (rfl | rfl) <;> rfl
  · rintro c cs rfl
    have hred : Venv.uses_shared_libs
        (Venv.mk0 root_name (some (c :: cs)) stored) =
        containsMarkerList (c :: cs) := rfl
    rw [hred]
    exact containsMarkerList_iff (c :: cs)

/-- Witness for C8: a fresh venv uses shared libs; an existing venv with a
marker file satisfies the equivalence. -/
theorem uses_shared_libs_witness :
    Venv.uses_shared_libs (Venv.mk0 "demo" none none) = true ∧
      (Venv.uses_shared_libs (Venv.mk0 "demo"
          (some [FsTree.file PIPX_SHARED_PTH]) none) = true ↔
        ∃ t ∈ [FsTree.file PIPX_SHARED_PTH], HasMarker t) :=
  ⟨(uses_shared_libs_spec "demo" none none).1 (Or.inl rfl),
   (uses_shared_libs_spec "demo" (some [FsTree.file PIPX_SHARED_PTH]) none).2
     (FsTree.file PIPX_SHARED_PTH) [] rfl⟩

/-- C9: `package_metadata` gives the main record precedence over an
injected record of the same name, leaves all other injected names
untouched, and equals the injected mapping when no main package is
recorded. -/
theorem package_metadata_precedence (md : PipxMetadata) :
    (md.main_package.package = none →
      Venv.package_metadata md = md.injected_packages) ∧
    (∀ nm, md.main_package.package = some nm →
      dictLookup (Venv.package_metadata md) nm = some md.main_package ∧
      ∀ k, k ≠ nm →
        dictLookup (Venv.package_metadata md) k =
          dictLookup md.injected_packages k) := by
  constructor
  · intro h
    unfold Venv.package_metadata
    rw [h]
  · intro nm h
    unfold Venv.package_metadata
    rw [h]
    exact ⟨dictLookup_dictInsert_self _ _ _,
      fun k hk => dictLookup_dictInsert_ne _ _ _ _ hk⟩

/-- Metadata document with a main record named `"foo"` shadowing an
injected record of the same name, next to an injected `"bar"`. -/
def mdDouble : PipxMetadata :=
  { main_package :=
      { PackageInfo.empty with
        package := some "foo",
        package_version := some "1.0" },
    injected_packages := [("foo", PackageInfo.empty),
      ("bar", PackageInfo.empty)],
    venv_args := [], python_version := none }

/-- Witness for C9 on `mdDouble`. -/
theorem package_metadata_precedence_witness :
    dictLookup (Venv.package_metadata mdDouble) "foo" =
        some mdDouble.main_package ∧
      dictLookup (Venv.package_metadata mdDouble) "bar" =
        dictLookup mdDouble.injected_packages "bar" :=
  ⟨((package_metadata_precedence mdDouble).2 "foo" rfl).1,
   ((package_metadata_precedence mdDouble).2 "foo" rfl).2 "bar" (by decide)⟩

/-- C10: with no main package recorded, both `name` and
`main_package_name` are the root directory's name; with one recorded,
`main_package_name` is that package name and `name` is the package name
concatenated with its suffix. -/
theorem venv_names_spec (st : VenvState) :
    (st.pipx_metadata.main_package.package = none →
      Venv.name st = st.root_name ∧
        Venv.main_package_name st = st.root_name) ∧
    (∀ p, st.pipx_metadata.main_package.package = some p →
      Venv.main_package_name st = p ∧
        Venv.name st = p ++ st.pipx_metadata.main_package.suffix) := by
  constructor
  · intro h
    unfold Venv.name Venv.main_package_name
    rw [h]
    exact ⟨rfl, rfl⟩
  · intro p h
    unfold Venv.name Venv.main_package_name
    rw [h]
    exact ⟨rfl, rfl⟩

/-- A legacy venv: pre-existing root, no metadata document. -/
def stLegacy : VenvState := Venv.mk0 "legacyvenv" (some [FsTree.file "cfg"]) none

/-- A venv whose document records main package `"foo"` with suffix
`"@2"`. -/
def stMain : VenvState :=
  { stLegacy with
    pipx_metadata :=
      { PipxMetadata.empty with
        main_package :=
          { PackageInfo.empty with
            package := some "foo",
            suffix := "@2" } } }

/-- Witness for C10 on a legacy venv and on one with a recorded main
package. -/
theorem venv_names_witness :
    Venv.name stLegacy = "legacyvenv" ∧
      Venv.main_package_name stMain = "foo" ∧
      Venv.name stMain = "foo" ++ "@2" :=
  ⟨((venv_names_spec stLegacy).1 rfl).1,
   ((venv_names_spec stMain).2 "foo" rfl).1,
   ((venv_names_spec stMain).2 "foo" rfl).2⟩

/-- C1 counterexample: the installer exits 0 and the introspector reports
no version; `install_package` does fail with the missing-version error,
but at that point the persisted metadata document already records the
package (with an absent version) — the write is not withheld. -/
theorem install_missing_version_counterexample :
    (Venv.install_package freshState wNoVersion "foo" "foo" [] false true
        true "").error = some (PipxError.unableToInstall "foo" "foo") ∧
    dictLookup (Venv.package_metadata
        ((Venv.install_package freshState wNoVersion "foo" "foo" [] false
          true true "").state.written.getD PipxMetadata.empty)) "foo" =
      some (Venv.builtRecord vmNoVersion "foo" "foo" [] false true "") :=
  ⟨rfl, rfl⟩

/-- C1 (amended): when the installer exits 0 but introspection yields no
version, `install_package` raises the missing-version error — provided the
freshly written record is the one `package_metadata` returns for the name,
i.e. the install is the main one or no same-named main record shadows an
injected one — and the state at the raise has the metadata document
already rewritten, recording the package with an absent version. -/
theorem install_missing_version_rewrites_metadata (st : VenvState)
    (w : Venv.InstallWorld) (package package_or_url : String)
    (pip_args : List String) (d a m : Bool) (suffix : String)
    (hrc : w.pip_returncode = 0)
    (hver : w.introspected.package_version = none)
    (hm : m = true ∨ st.pipx_metadata.main_package.package ≠ some package) :
    Venv.install_package st w package package_or_url pip_args d a m suffix =
      OpResult.err
        (Venv.update_package_metadata st w.introspected package
          package_or_url pip_args d a m suffix)
        (PipxError.unableToInstall package package_or_url) ∧
    (Venv.update_package_metadata st w.introspected package package_or_url
        pip_args d a m suffix).written =
      some (Venv.update_package_metadata st w.introspected package
        package_or_url pip_args d a m suffix).pipx_metadata ∧
    dictLookup (Venv.package_metadata
        (Venv.update_package_metadata st w.introspected package
          package_or_url pip_args d a m suffix).pipx_metadata) package =
      some (Venv.builtRecord w.introspected package package_or_url pip_args
        d a suffix) ∧
    (Venv.builtRecord w.introspected package package_or_url pip_args d a
      suffix).package_version = none := by
  have hlk := lookup_after_update st w.introspected package package_or_url
    pip_args d a m suffix hm
  refine ⟨?_, ?_, hlk, ?_⟩
  · unfold Venv.install_package
    simp only [Venv.fix_package_name, Venv.parse_specifier_for_install]
    rw [if_neg (by simp [hrc])]
    rw [hlk]
    simp [Venv.builtRecord, hver]
  · cases m <;> rfl
  · simp [Venv.builtRecord, hver]

/-- Witness for C1 (amended): the fresh-state instance. -/
theorem install_missing_version_witness :
    Venv.install_package freshState wNoVersion "foo" "foo" [] false true
        true "" =
      OpResult.err
        (Venv.update_package_metadata freshState vmNoVersion "foo" "foo" []
          false true true "")
        (PipxError.unableToInstall "foo" "foo") :=
  (install_missing_version_rewrites_metadata freshState wNoVersion "foo"
    "foo" [] false true true "" rfl rfl (Or.inl rfl)).1

/-- C2: `install_package_no_deps` fails with the cannot-determine-name
error on a nonzero installer exit, likewise when the snapshot difference
does not have exactly one element; when the difference is a singleton its
element is returned, and the state is untouched in every case. -/
theorem name_inference_by_diff (st : VenvState) (w : Venv.NoDepsWorld)
    (package_or_url : String) (pip_args : List String) :
    (w.pip_returncode ≠ 0 →
      Venv.install_package_no_deps st w package_or_url pip_args =
        OpResult.err st (PipxError.cannotDetermineName package_or_url)) ∧
    (w.pip_returncode = 0 →
      (w.installed_after \ w.installed_before).card ≠ 1 →
      Venv.install_package_no_deps st w package_or_url pip_args =
        OpResult.err st (PipxError.cannotDetermineName package_or_url)) ∧
    (∀ p, w.pip_returncode = 0 →
      w.installed_after \ w.installed_before = {p} →
      Venv.install_package_no_deps st w package_or_url pip_args =
        OpResult.ok st p) := by
  refine ⟨fun h => ?_, fun h0 hcard => ?_, fun p h0 hdiff => ?_⟩
  · simp [Venv.install_package_no_deps, h]
  · simp [Venv.install_package_no_deps, h0, hcard]
  · simp [Venv.install_package_no_deps, h0, hdiff, Finset.min'_singleton]

/-- World in which the snapshot difference is exactly `{"foo"}`. -/
def wDiffOne : Venv.NoDepsWorld :=
  { pip_returncode := 0, installed_before := ∅, installed_after := {"foo"} }

/-- Witness for C2: the diff `{"foo"}` resolves the name `"foo"`. -/
theorem name_inference_witness :
    Venv.install_package_no_deps freshState wDiffOne "foo.tar.gz" [] =
      OpResult.ok freshState "foo" :=
  (name_inference_by_diff freshState wDiffOne "foo.tar.gz" []).2.2 "foo" rfl
    (by decide)

/-- C3: constructing a `Venv` on a pre-existing root that uses
shared-runtime linkage reconciles the shared runtime — invalid triggers
`create`, valid-but-stale triggers `upgrade` — and when the result is
still invalid, construction returns the fatal error instead of a usable
state. -/
theorem init_shared_runtime_reconciliation (root_name : String) (c : FsTree)
    (cs : List FsTree) (stored : Option PipxMetadata) (sl : SharedLibs)
    (ops : SharedLibsOps)
    (hmark : containsMarkerList (c :: cs) = true) :
    (sl.is_valid = false →
      Venv.init root_name (some (c :: cs)) stored sl ops =
        if (ops.create sl).is_valid then
          Except.ok (Venv.mk0 root_name (some (c :: cs)) stored,
            ops.create sl)
        else Except.error (PipxError.sharedVenvInvalid root_name)) ∧
    (sl.is_valid = true → sl.needs_upgrade = true →
      Venv.init root_name (some (c :: cs)) stored sl ops =
        if (ops.upgrade sl).is_valid then
          Except.ok (Venv.mk0 root_name (some (c :: cs)) stored,
            ops.upgrade sl)
        else Except.error (PipxError.sharedVenvInvalid root_name)) := by
  have hexist : (Venv.mk0 root_name (some (c :: cs)) stored).existing =
      true := rfl
  have husl : Venv.uses_shared_libs
      (Venv.mk0 root_name (some (c :: cs)) stored) = true := hmark
  refine ⟨fun hv => ?_, fun hv hup => ?_⟩
  · simp [Venv.init, hexist, husl, hv]
  · simp [Venv.init, hexist, husl, hv, hup]

/-- Shared-libs transitions used by the C3 witness: `create` repairs the
runtime, `upgrade` changes nothing. -/
def slOpsW : SharedLibsOps :=
  { create := fun _ => { is_valid := true, needs_upgrade := false },
    upgrade := fun s => s }

/-- Witness for C3: an invalid shared runtime on a marker-carrying root is
created and construction succeeds with the repaired runtime. -/
theorem init_reconciliation_witness :
    Venv.init "demo" (some [FsTree.file PIPX_SHARED_PTH]) none
        { is_valid := false, needs_upgrade := false } slOpsW =
      Except.ok (Venv.mk0 "demo" (some [FsTree.file PIPX_SHARED_PTH]) none,
        { is_valid := true, needs_upgrade := false }) :=
  (init_shared_runtime_reconciliation "demo" (FsTree.file PIPX_SHARED_PTH)
    [] none { is_valid := false, needs_upgrade := false } slOpsW
    (by decide)).1 rfl

/-- C4: `remove_venv` deletes the root only when the venv was not
pre-existing; on a pre-existing venv it warns and leaves the filesystem
untouched. -/
theorem remove_venv_guard (st : VenvState) :
    (st.existing = true → Venv.remove_venv st = (st, true)) ∧
    (st.existing = false →
      Venv.remove_venv st = ({ st with rootChildren := none }, false)) := by
  refine ⟨fun h => ?_, fun h => ?_⟩ <;>
    simp [Venv.remove_venv, Venv.safe_to_remove, h]

/-- Witness for C4: removing a pre-existing venv is a warning-only
no-op. -/
theorem remove_venv_witness :
    Venv.remove_venv (Venv.mk0 "demo" (some [FsTree.file "cfg"]) none) =
      (Venv.mk0 "demo" (some [FsTree.file "cfg"]) none, true) :=
  (remove_venv_guard (Venv.mk0 "demo" (some [FsTree.file "cfg"]) none)).1 rfl

/-- C5 counterexample: on installer exit 0 with no introspected version,
`upgrade_package` succeeds (and persists a record with an absent version)
while `install_package` on the same inputs raises the missing-version
error — so the contract is not identical in that respect. -/
theorem upgrade_package_counterexample :
    (Venv.upgrade_package freshState wNoVersion "foo" "foo" [] false true
        true "").error = none ∧
    (Venv.upgrade_package freshState wNoVersion "foo" "foo" [] false true
        true "").state.pipx_metadata.main_package.package_version = none ∧
    (Venv.install_package freshState wNoVersion "foo" "foo" [] false true
        true "").error = some (PipxError.unableToInstall "foo" "foo") :=
  ⟨rfl, rfl, rfl⟩

/-- C5 (amended): `upgrade_package` shares install's fatal-on-nonzero-exit
policy (state unchanged on failure) and performs the very same metadata
rewrite step afterwards, but returns successfully regardless of the
introspected version — it has no missing-version check. -/
theorem upgrade_package_contract (st : VenvState) (w : Venv.InstallWorld)
    (package package_or_url : String) (pip_args : List String)
    (d a m : Bool) (suffix : String) :
    (w.pip_returncode ≠ 0 →
      Venv.upgrade_package st w package package_or_url pip_args d a m
        suffix = OpResult.err st PipxError.subprocessFailed) ∧
    (w.pip_returncode = 0 →
      Venv.upgrade_package st w package package_or_url pip_args d a m
        suffix =
        OpResult.ok (Venv.update_package_metadata st w.introspected package
          package_or_url pip_args d a m suffix) ()) := by
  refine ⟨fun h => ?_, fun h => ?_⟩ <;> simp [Venv.upgrade_package, h]

/-- Witness for C5 (amended): a successful upgrade despite the missing
version. -/
theorem upgrade_package_witness :
    Venv.upgrade_package freshState wNoVersion "foo" "foo" [] false true
        true "" =
      OpResult.ok (Venv.update_package_metadata freshState vmNoVersion
        "foo" "foo" [] false true true "") () :=
  (upgrade_package_contract freshState wNoVersion "foo" "foo" [] false true
    true "").2 rfl

end Pipx
